import Mathlib

/-!
# A shallow embedding of the go-vcr cassette / recorder core

This file embeds the core of the `dnaeon/go-vcr` library (the v4 layout:
`pkg/cassette/cassette.go` and `pkg/recorder/recorder.go`) into Lean and
proves the behavioural properties stated in the specification.

Modelling conventions:
* Go maps (`http.Header`, `url.Values`) are association lists
  `List (String × List String)`; a `nil` map is distinguished from an empty
  map by wrapping in `Option`.
* `io.ReadCloser` bodies are modelled by `GoBody`: `null` for a `nil` body,
  `noBody` for the `http.NoBody` sentinel, and `reader data pos` for a
  byte-stream over `data` of which `pos` bytes are already consumed.
* Functions that in Go mutate a value through a pointer are modelled by
  returning the updated value alongside the result.
* `net/http`'s `Request.ParseForm` is an external-library call; its outcome
  is carried on the request as the fields `parseFormOk` (whether the call
  succeeds) and `formAfterParse` (the value `Form` holds after a successful
  call).  The time-dependent context (`Request.Context()`) is modelled by
  an explicit `CtxState` record of what the context reports at each of the
  points where the Go code consults it.
-/

namespace VCR

/-- Errors produced by the library, one constructor per distinct Go error
value.  `osFileNotExist` stands for the `*fs.PathError` (wrapping
`fs.ErrNotExist`) that `os.ReadFile` returns for a missing file;
`hookError`, `transportError` and `urlParseError` stand for opaque errors
returned by user hooks, the real transport and `url.Parse`. -/
inductive GoErr where
  | interactionNotFound
  | cassetteNotFound
  | unsupportedCassetteFormat
  | invalidMode
  | noCassetteName
  | unsafeRequestMethod
  | ctxCanceled
  | osFileNotExist
  | hookError (msg : String)
  | transportError (msg : String)
  | formParseError
  deriving DecidableEq, Repr

/-- A Go `map[string][]string` (`http.Header` / `url.Values`) as an
association list.  `none` at use sites models a `nil` map. -/
abbrev GoMap := List (String × List String)

/-- Key lookup in a `GoMap`, mirroring Go map indexing. -/
def goMapLookup (m : GoMap) (k : String) : Option (List String) :=
  (m.find? (fun kv => kv.1 == k)).map (fun kv => kv.2)

/-- `reflect.DeepEqual` on two non-nil Go maps: equal size and every
key/value pair of the first is present in the second. -/
def goMapDeepEqual (x y : GoMap) : Bool :=
  x.length == y.length &&
    x.all (fun kv => goMapLookup y kv.1 == some kv.2)

/-- Go `delete(m, k)` (a no-op through `Option.map` when the map is nil). -/
def goMapDelete (m : GoMap) (k : String) : GoMap :=
  m.filter (fun kv => kv.1 != k)

/-- Deleting every header of `ignore` from an (optional, i.e. possibly nil)
header map, as the loop over `m.ignoreHeaders` does in
`defaultMatcher.matcher`. -/
def deleteHeaders (ignore : List String) (m : Option GoMap) : Option GoMap :=
  m.map (fun mm => ignore.foldl goMapDelete mm)

/-- `defaultMatcher.deepEqualContents` specialised to optional Go maps:
nil equals nil, nil equals an empty collection, and two non-nil maps are
compared with `reflect.DeepEqual`. -/
def deepEqualContentsMap (x y : Option GoMap) : Bool :=
  match x, y with
  | none, none => true
  | none, some m => m.length == 0
  | some m, none => m.length == 0
  | some a, some b => goMapDeepEqual a b

/-- `defaultMatcher.deepEqualContents` specialised to optional string
slices (`TransferEncoding`): nil equals nil, nil equals an empty slice,
and two non-nil slices are compared element-wise. -/
def deepEqualContentsList (x y : Option (List String)) : Bool :=
  match x, y with
  | none, none => true
  | none, some l => l.length == 0
  | some l, none => l.length == 0
  | some a, some b => a == b

/-- The body of a live `*http.Request`: a `nil` interface value, the
`http.NoBody` sentinel, or a readable stream over `data` whose first
`pos` bytes are already consumed. -/
inductive GoBody where
  | null
  | noBody
  | reader (data : String) (pos : Nat)
  deriving DecidableEq, Repr

/-- Whether the body interface value is `nil`. -/
def GoBody.isNull : GoBody → Bool
  | .null => true
  | _ => false

/-- The bytes a full read of the body would yield from its current
position (`""` for a nil body, which cannot be read at all). -/
def GoBody.readRemaining : GoBody → String
  | .null => ""
  | .noBody => ""
  | .reader data pos => data.drop pos

/-- A live `*http.Request` (the slice of Go's `http.Request` the library
reads and writes).  `url` is the rendered `r.URL.String()`.
`parseFormOk`/`formAfterParse` describe the outcome of `r.ParseForm()`
(external `net/http` behaviour): when `parseFormOk` is true the call
succeeds and leaves `Form = formAfterParse`; `postFormAfterParse` is the
`PostForm` of the copied request that the recording path parses. -/
structure HttpRequest where
  method : String
  url : String
  proto : String
  protoMajor : Nat
  protoMinor : Nat
  header : Option GoMap
  body : GoBody
  contentLength : Int
  transferEncoding : Option (List String)
  host : String
  form : Option GoMap
  parseFormOk : Bool
  formAfterParse : Option GoMap
  postFormAfterParse : Option GoMap
  trailer : Option GoMap
  remoteAddr : String
  requestURI : String
  deriving DecidableEq, Repr

/-- `cassette.Request`: a client request as recorded in the cassette. -/
structure CassRequest where
  proto : String
  protoMajor : Nat
  protoMinor : Nat
  contentLength : Int
  transferEncoding : Option (List String)
  trailer : Option GoMap
  host : String
  remoteAddr : String
  requestURI : String
  body : String
  form : Option GoMap
  headers : Option GoMap
  url : String
  method : String
  deriving DecidableEq, Repr

/-- `cassette.Response`: a server response as recorded in the cassette.
`duration` is the recorded `time.Duration` in nanoseconds. -/
structure CassResponse where
  proto : String
  protoMajor : Nat
  protoMinor : Nat
  transferEncoding : Option (List String)
  trailer : Option GoMap
  contentLength : Int
  uncompressed : Bool
  body : String
  headers : Option GoMap
  status : String
  code : Int
  duration : Nat
  deriving DecidableEq, Repr

/-- `cassette.Interaction`: a recorded request/response pair together with
the transient bookkeeping fields (`DiscardOnSave`, `replayed`), which carry
the YAML tag `-` and are therefore never serialized. -/
structure Interaction where
  id : Nat
  request : CassRequest
  response : CassResponse
  discardOnSave : Bool
  replayed : Bool
  deriving DecidableEq, Repr

/-- `defaultMatcher.bodyMatches`: with a non-nil live body, read all the
remaining bytes, reinstall a fresh reader over exactly those bytes, and
compare them with the stored body; a nil live body matches only an empty
stored body.  Returns the match result together with the (possibly
rewritten) request. -/
def bodyMatches (r : HttpRequest) (i : CassRequest) : Bool × HttpRequest :=
  match r.body with
  | .null => (i.body.length == 0, r)
  | b =>
      let s := b.readRemaining
      let r2 := { r with body := .reader s 0 }
      (s == i.body, r2)

/-- The tail of `defaultMatcher.matcher` after the `ParseForm` step: form
values, trailer, remote address and request URI. -/
def matcherTail (r : HttpRequest) (i : CassRequest) : Bool × HttpRequest :=
  if !deepEqualContentsMap r.form i.form then (false, r)
  else if !deepEqualContentsMap r.trailer i.trailer then (false, r)
  else if r.remoteAddr != i.remoteAddr then (false, r)
  else if r.requestURI != i.requestURI then (false, r)
  else (true, r)

/-- The part of `defaultMatcher.matcher` after the body comparison, with
`r1` the live request as rewritten by `bodyMatches`: content length,
transfer encoding, host, the `ParseForm` step (run only for POST, PUT and
PATCH, writing the parsed values into `Form`), and the tail. -/
def matcherAfterBody (r1 : HttpRequest) (i : CassRequest) : Bool × HttpRequest :=
  if r1.contentLength != i.contentLength then (false, r1)
  else if !deepEqualContentsList r1.transferEncoding i.transferEncoding then
    (false, r1)
  else if r1.host != i.host then (false, r1)
  else
    -- Only ParseForm for non-GET requests since that would use query params
    if r1.method == "POST" || r1.method == "PUT" || r1.method == "PATCH" then
      if !r1.parseFormOk then (false, r1)
      else matcherTail { r1 with form := r1.formAfterParse } i
    else matcherTail r1 i

/-- `defaultMatcher.matcher` for a matcher configured with the ignore-list
`ignore`: the sequence of early-return comparisons of the Go code, in
source order.  The request is threaded through because `bodyMatches` and
`ParseForm` write to it. -/
def defaultMatcherFn (ignore : List String) (r : HttpRequest) (i : CassRequest) :
    Bool × HttpRequest :=
  if r.method != i.method then (false, r)
  else if r.url != i.url then (false, r)
  else if r.proto != i.proto then (false, r)
  else if r.protoMajor != i.protoMajor then (false, r)
  else if r.protoMinor != i.protoMinor then (false, r)
  else if !deepEqualContentsMap (deleteHeaders ignore r.header)
      (deleteHeaders ignore i.headers) then (false, r)
  else if !(bodyMatches r i).1 then (false, (bodyMatches r i).2)
  else matcherAfterBody (bodyMatches r i).2 i

/-- `cassette.MatcherFunc`.  The Go matcher receives the live request by
pointer and may write to it (body rewind, `ParseForm`), so the model
returns the updated request alongside the verdict. -/
abbrev MatcherFunc := HttpRequest → CassRequest → Bool × HttpRequest

/-- `cassette.CassetteFormatVersion`. -/
def cassetteFormatVersion : Nat := 2

/-- `cassette.Cassette`.  The `sync.Mutex` is not modelled (operations are
already atomic functions here); the remaining fields follow the Go struct. -/
structure Cassette where
  name : String
  file : String
  version : Nat
  interactions : List Interaction
  replayableInteractions : Bool
  matcher : MatcherFunc
  isNew : Bool
  nextInteractionId : Nat

/-- `cassette.New`. -/
def cassetteNew (name : String) : Cassette :=
  { name := name
    file := name ++ ".yaml"
    version := cassetteFormatVersion
    interactions := []
    matcher := defaultMatcherFn []
    replayableInteractions := false
    isNew := true
    nextInteractionId := 0 }

/-- `Cassette.AddInteraction`: assign the next monotonic id, append, and
return the updated cassette together with the interaction as stored (Go
mutates the passed pointer in place). -/
def Cassette.addInteraction (c : Cassette) (i : Interaction) : Cassette × Interaction :=
  let i2 := { i with id := c.nextInteractionId }
  ({ c with nextInteractionId := c.nextInteractionId + 1
            interactions := c.interactions ++ [i2] }, i2)

/-- The loop of `Cassette.getInteraction`: scan the interactions in stored
order; at the first one that is still allowed to replay and is accepted by
the matcher, mark it replayed and return it.  The live request is threaded
because the matcher may write to it. -/
def scanInteractions (m : MatcherFunc) (replayable : Bool) (r : HttpRequest) :
    List Interaction → Except GoErr Interaction × List Interaction × HttpRequest
  | [] => (.error .interactionNotFound, [], r)
  | i :: rest =>
    if replayable || !i.replayed then
      match m r i.request with
      | (true, r2) =>
          let i2 := { i with replayed := true }
          (.ok i2, i2 :: rest, r2)
      | (false, r2) =>
          let (res, rest2, r3) := scanInteractions m replayable r2 rest
          (res, i :: rest2, r3)
    else
      let (res, rest2, r2) := scanInteractions m replayable r rest
      (res, i :: rest2, r2)

/-- The body normalization at the top of `Cassette.getInteraction`: a nil
live body is replaced with the `http.NoBody` sentinel (so that `ParseForm`
inside the matcher does not fail on a nil body). -/
def normalizeBody (r : HttpRequest) : HttpRequest :=
  match r.body with
  | .null => { r with body := .noBody }
  | _ => r

/-- `Cassette.getInteraction`: normalize a nil live body, then scan the
stored interactions in order. -/
def Cassette.getInteraction (c : Cassette) (r : HttpRequest) :
    Except GoErr Interaction × Cassette × HttpRequest :=
  let (res, l, r1) :=
    scanInteractions c.matcher c.replayableInteractions (normalizeBody r) c.interactions
  (res, { c with interactions := l }, r1)

/-- One interaction as it appears in the serialized cassette file: exactly
the yaml-tagged fields `id`, `request` and `response` (the fields tagged
`yaml:"-"`, `DiscardOnSave` and `replayed`, are not written). -/
structure MarshaledInteraction where
  id : Nat
  request : CassRequest
  response : CassResponse
  deriving DecidableEq, Repr

/-- The serialized cassette document: the yaml-tagged fields `version` and
`interactions`. -/
structure MarshaledCassette where
  version : Nat
  interactions : List MarshaledInteraction
  deriving DecidableEq, Repr

/-- Projection of an in-memory interaction onto its serialized form. -/
def marshalInteraction (i : Interaction) : MarshaledInteraction :=
  { id := i.id, request := i.request, response := i.response }

/-- The discard-and-renumber loop of `Cassette.Save`, with `nextId` the
running counter: interactions with `DiscardOnSave` set are dropped and the
survivors are assigned consecutive ids. -/
def saveFilterAux (nextId : Nat) : List Interaction → List Interaction
  | [] => []
  | i :: rest =>
    if i.discardOnSave then saveFilterAux nextId rest
    else { i with id := nextId } :: saveFilterAux (nextId + 1) rest

/-- `Cassette.Save`: filter out discarded interactions renumbering the
rest (this rewrites `c.Interactions` in place), then marshal the cassette.
The file-system side (directory creation, writing the bytes) is external
IO and is represented by returning the marshaled document. -/
def Cassette.save (c : Cassette) : Cassette × MarshaledCassette :=
  let l := saveFilterAux 0 c.interactions
  let c2 := { c with interactions := l }
  (c2, { version := c2.version, interactions := l.map marshalInteraction })

/-- Reading an interaction back from its serialized form: the transient
fields carry the YAML tag `-`, so they come back at their zero value
`false`. -/
def unmarshalInteraction (mi : MarshaledInteraction) : Interaction :=
  { id := mi.id, request := mi.request, response := mi.response
    discardOnSave := false, replayed := false }

/-- `cassette.Load`.  `file` is the content `os.ReadFile` finds at the
cassette path: `none` when the file is absent, in which case Load returns
the `os.ReadFile` error itself (not `ErrCassetteNotFound`).  Otherwise the
fresh cassette from `New` is marked not-new, the document is unmarshaled
into it, the version is checked, and the next-id counter is set to the
number of loaded interactions. -/
def cassetteLoad (name : String) (file : Option MarshaledCassette) :
    Except GoErr Cassette :=
  match file with
  | none => .error .osFileNotExist
  | some d =>
    let c0 := cassetteNew name
    let c1 := { c0 with isNew := false
                        version := d.version
                        interactions := d.interactions.map unmarshalInteraction }
    if c1.version != cassetteFormatVersion then .error .unsupportedCassetteFormat
    else .ok { c1 with nextInteractionId := c1.interactions.length }

/-- `recorder.Mode`. -/
inductive Mode where
  | recordOnly
  | replayOnly
  | replayWithNewEpisodes
  | recordOnce
  | passthrough
  deriving DecidableEq, Repr

/-- `recorder.HookKind`. -/
inductive HookKind where
  | afterCapture
  | beforeSave
  | beforeResponseReplay
  | onRecorderStop
  deriving DecidableEq, Repr

/-- `recorder.Hook`.  A Go `HookFunc` mutates the interaction through a
pointer and returns an error; here the successful case carries the mutated
interaction. -/
structure Hook where
  kind : HookKind
  handler : Interaction → Except GoErr Interaction

/-- `Recorder.applyHooks`, instrumented: run the hooks of the given kind in
registration order, stopping at the first error; also report the positions
(indices into the full hook list, starting at `idx`) of the hooks that were
actually invoked. -/
def applyHooksAux (kind : HookKind) :
    List Hook → Nat → Interaction → Except GoErr Interaction × List Nat
  | [], _, i => (.ok i, [])
  | h :: rest, idx, i =>
    if h.kind == kind then
      match h.handler i with
      | .error e => (.error e, [idx])
      | .ok i2 =>
          let (res, inv) := applyHooksAux kind rest (idx + 1) i2
          (res, idx :: inv)
    else applyHooksAux kind rest (idx + 1) i

/-- `Recorder.applyHooks` proper (result only). -/
def applyHooks (hooks : List Hook) (kind : HookKind) (i : Interaction) :
    Except GoErr Interaction :=
  (applyHooksAux kind hooks 0 i).1

/-- A live `*http.Response` as returned by the real transport or rebuilt
from a recorded interaction. -/
structure HttpResponse where
  status : String
  statusCode : Int
  proto : String
  protoMajor : Nat
  protoMinor : Nat
  transferEncoding : Option (List String)
  trailer : Option GoMap
  contentLength : Int
  uncompressed : Bool
  body : String
  headers : Option GoMap
  deriving DecidableEq, Repr

/-- `Interaction.GetHTTPResponse`: rebuild a live response from the
recorded fields (a fresh reader over the stored body; the embedded request
link and its `url.Parse` are not needed by any property here and are
omitted). -/
def getHTTPResponse (i : Interaction) : HttpResponse :=
  { status := i.response.status
    statusCode := i.response.code
    proto := i.response.proto
    protoMajor := i.response.protoMajor
    protoMinor := i.response.protoMinor
    transferEncoding := i.response.transferEncoding
    trailer := i.response.trailer
    contentLength := i.response.contentLength
    uncompressed := i.response.uncompressed
    body := i.response.body
    headers := i.response.headers }

/-- What the request's `Context()` reports at the three points where the
Go code consults (or could consult) it: at the entry of `requestHandler`,
at the `select` in `RoundTrip` just before the latency wait, and — this
one is *never read by the code* — whether the context fires while the
latency wait is in progress. -/
structure CtxState where
  errAtHandlerEntry : Option GoErr
  doneAtSelect : Bool
  firesDuringWait : Bool
  deriving DecidableEq, Repr

/-- `recorder.Recorder`.  The real transport is the injected external
capability `perform(request) → response | error`. -/
structure Recorder where
  cassette : Cassette
  cassetteName : String
  mode : Mode
  realTransport : HttpRequest → Except GoErr HttpResponse
  blockUnsafeMethods : Bool
  skipRequestLatency : Bool
  passthroughs : List (HttpRequest → Bool)
  hooks : List Hook

/-- `blockUnsafeMethodsRoundTripper.RoundTrip`'s safe-method set. -/
def isSafeMethod (m : String) : Bool :=
  m == "GET" || m == "HEAD" || m == "OPTIONS" || m == "TRACE"

/-- `Recorder.getRoundTripper`: the real transport, optionally wrapped by
the unsafe-method guard. -/
def Recorder.getRoundTripper (rec : Recorder) (r : HttpRequest) :
    Except GoErr HttpResponse :=
  if rec.blockUnsafeMethods then
    if isSafeMethod r.method then rec.realTransport r
    else .error .unsafeRequestMethod
  else rec.realTransport r

/-- The interaction assembled by `Recorder.requestHandler` from the live
request, the transport's response and the measured wall-clock duration
`elapsed` of the real call.  The request body is teed into a buffer (and
stays empty for a nil or `http.NoBody` body); the recorded form is the
`PostForm` of the parsed copy of the request. -/
def captureInteraction (r : HttpRequest) (resp : HttpResponse) (elapsed : Nat) :
    Interaction :=
  { id := 0
    request :=
      { proto := r.proto
        protoMajor := r.protoMajor
        protoMinor := r.protoMinor
        contentLength := r.contentLength
        transferEncoding := r.transferEncoding
        trailer := r.trailer
        host := r.host
        remoteAddr := r.remoteAddr
        requestURI := r.requestURI
        body := match r.body with
          | .null => ""
          | .noBody => ""
          | .reader d p => d.drop p
        form := r.postFormAfterParse
        headers := r.header
        url := r.url
        method := r.method }
    response :=
      { status := resp.status
        code := resp.statusCode
        proto := resp.proto
        protoMajor := resp.protoMajor
        protoMinor := resp.protoMinor
        transferEncoding := resp.transferEncoding
        trailer := resp.trailer
        contentLength := resp.contentLength
        uncompressed := resp.uncompressed
        body := resp.body
        headers := resp.headers
        duration := elapsed }
    discardOnSave := false
    replayed := false }

/-- The record ("perform and record") tail of `Recorder.requestHandler`:
parse the copied request's form (propagating a failure), perform the real
call through `getRoundTripper`, assemble the interaction, run the
after-capture hooks — a hook error aborts *before* the interaction is
appended — and only then add it to the in-memory cassette.  (The in-place
replacement of the live body by a tee reader during the real call is not
observable through any property here and is not tracked.) -/
def Recorder.recordPath (rec : Recorder) (r : HttpRequest) (elapsed : Nat) :
    Except GoErr Interaction × Recorder × HttpRequest :=
  if !r.parseFormOk then (.error .formParseError, rec, r)
  else
    match rec.getRoundTripper r with
    | .error e => (.error e, rec, r)
    | .ok resp =>
      let interaction := captureInteraction r resp elapsed
      match applyHooks rec.hooks .afterCapture interaction with
      | .error e => (.error e, rec, r)
      | .ok i2 =>
        let (c2, stored) := rec.cassette.addInteraction i2
        (.ok stored, { rec with cassette := c2 }, r)

/-- `Recorder.requestHandler`: the context check at entry followed by the
mode switch of the Go code, falling through to the record path. -/
def Recorder.requestHandler (rec : Recorder) (r : HttpRequest) (ctx : CtxState)
    (elapsed : Nat) : Except GoErr Interaction × Recorder × HttpRequest :=
  match ctx.errAtHandlerEntry with
  | some e => (.error e, rec, r)
  | none =>
    if rec.mode == .replayOnly then
      let (res, c2, r2) := rec.cassette.getInteraction r
      (res, { rec with cassette := c2 }, r2)
    else if rec.mode == .replayWithNewEpisodes then
      match rec.cassette.getInteraction r with
      | (.ok i, c2, r2) => (.ok i, { rec with cassette := c2 }, r2)
      | (.error .interactionNotFound, c2, r2) =>
          Recorder.recordPath { rec with cassette := c2 } r2 elapsed
      | (.error e, c2, r2) => (.error e, { rec with cassette := c2 }, r2)
    else if rec.mode == .recordOnce && !rec.cassette.isNew then
      let (res, c2, r2) := rec.cassette.getInteraction r
      (res, { rec with cassette := c2 }, r2)
    else if rec.mode == .passthrough then
      Recorder.recordPath rec r elapsed
    else if (rec.mode == .recordOnly || rec.mode == .recordOnce)
        && rec.cassette.replayableInteractions then
      match rec.cassette.getInteraction r with
      | (.ok i, c2, r2) => (.ok i, { rec with cassette := c2 }, r2)
      | (.error .interactionNotFound, c2, r2) =>
          Recorder.recordPath { rec with cassette := c2 } r2 elapsed
      | (.error e, c2, r2) => (.error e, { rec with cassette := c2 }, r2)
    else
      Recorder.recordPath rec r elapsed

/-- `Recorder.RoundTrip`.  Alongside the result and the updated recorder,
the third component is the time the call blocks in the latency-simulation
wait.  The `select` of the Go code has a `default` branch: the context is
consulted exactly once, before the wait; during the wait
(`<-time.After(...)`) the context is not read at all, which is why
`ctx.firesDuringWait` does not occur in this definition. -/
def Recorder.roundTrip (rec : Recorder) (req : HttpRequest) (ctx : CtxState)
    (elapsed : Nat) : Except GoErr HttpResponse × Recorder × Nat :=
  if rec.mode == .passthrough then
    (rec.getRoundTripper req, rec, 0)
  else if rec.passthroughs.any (fun p => p req) then
    (rec.getRoundTripper req, rec, 0)
  else
    match rec.requestHandler req ctx elapsed with
    | (.error e, rec2, _) => (.error e, rec2, 0)
    | (.ok interaction, rec2, _) =>
      match applyHooks rec2.hooks .beforeResponseReplay interaction with
      | .error e => (.error e, rec2, 0)
      | .ok i2 =>
        if ctx.doneAtSelect then (.error .ctxCanceled, rec2, 0)
        else
          (.ok (getHTTPResponse i2), rec2,
            if rec.skipRequestLatency then 0 else i2.response.duration)

/-- `Recorder.getCassette`: resolve the cassette for the recorder's mode
from whether the backing file exists and, when it does, its content.  The
`default: ErrInvalidMode` arm of the Go switch is unreachable here because
`Mode` is an enumeration. -/
def getCassette (mode : Mode) (name : String) (cassetteExists : Bool)
    (file : Option MarshaledCassette) : Except GoErr Cassette :=
  if name == "" then .error .noCassetteName
  else
    match mode, cassetteExists with
    | .recordOnly, _ => .ok (cassetteNew name)
    | .replayOnly, false => .error .cassetteNotFound
    | .replayOnly, true => cassetteLoad name file
    | .replayWithNewEpisodes, false => .ok (cassetteNew name)
    | .replayWithNewEpisodes, true => cassetteLoad name file
    | .recordOnce, false => .ok (cassetteNew name)
    | .recordOnce, true => cassetteLoad name file
    | .passthrough, _ => .ok (cassetteNew name)

/-- The per-interaction hook loops of `Recorder.persistCassette` and
`Recorder.Stop`: apply the hooks of one kind to every interaction in
order, stopping at the first error (the Go hooks mutate the stored
interactions through their pointers, so the transformed list replaces the
old one). -/
def runHooksOverList (hooks : List Hook) (kind : HookKind) :
    List Interaction → Except GoErr (List Interaction)
  | [] => .ok []
  | i :: rest =>
    match applyHooks hooks kind i with
    | .error e => .error e
    | .ok i2 =>
      match runHooksOverList hooks kind rest with
      | .error e => .error e
      | .ok rest2 => .ok (i2 :: rest2)

/-- `Recorder.persistCassette`: run the before-save hooks over every
interaction, then `Cassette.Save`.  Returns the updated recorder and the
document written to disk. -/
def Recorder.persistCassette (rec : Recorder) :
    Except GoErr (Recorder × MarshaledCassette) :=
  match runHooksOverList rec.hooks .beforeSave rec.cassette.interactions with
  | .error e => .error e
  | .ok l =>
    let (c2, data) := Cassette.save { rec.cassette with interactions := l }
    .ok ({ rec with cassette := c2 }, data)

/-- `Recorder.Stop`.  `cassetteExistsAtStop` is what `os.Stat` reports for
the cassette file when Stop runs.  Persist for RecordOnly and
ReplayWithNewEpisodes, and for RecordOnce when the file does not exist;
then run the on-recorder-stop hooks over the (possibly just saved)
interactions.  The second component is the document persisted to disk, or
`none` when nothing was written. -/
def Recorder.stop (rec : Recorder) (cassetteExistsAtStop : Bool) :
    Except GoErr (Recorder × Option MarshaledCassette) :=
  let persisted : Except GoErr (Recorder × Option MarshaledCassette) :=
    if rec.mode == .recordOnly || rec.mode == .replayWithNewEpisodes then
      match rec.persistCassette with
      | .error e => .error e
      | .ok (rec2, data) => .ok (rec2, some data)
    else if rec.mode == .recordOnce && !cassetteExistsAtStop then
      match rec.persistCassette with
      | .error e => .error e
      | .ok (rec2, data) => .ok (rec2, some data)
    else .ok (rec, none)
  match persisted with
  | .error e => .error e
  | .ok (rec2, data) =>
    match runHooksOverList rec2.hooks .onRecorderStop rec2.cassette.interactions with
    | .error e => .error e
    | .ok l =>
      .ok ({ rec2 with cassette := { rec2.cassette with interactions := l } }, data)

/-! ## Specification-side functions

These are the spec's descriptions of behaviour, written independently of
the implementation above so the theorems below can compare the two. -/

/-- Spec: "reassigns the ids of the remaining interactions contiguously
starting at `n` in their stored order". -/
def renumberFrom (n : Nat) : List Interaction → List Interaction
  | [] => []
  | i :: rest => { i with id := n } :: renumberFrom (n + 1) rest

/-- Spec: the index of the first interaction `i` such that
(`replayableInteractions` OR `i` not yet replayed) AND the matcher accepts
(live request, `i.Request`). -/
def firstAcceptedIdx (replayable : Bool) (m : MatcherFunc) (r : HttpRequest) :
    List Interaction → Option Nat
  | [] => none
  | i :: rest =>
    if (replayable || !i.replayed) && (m r i.request).1 then some 0
    else (firstAcceptedIdx replayable m r rest).map (fun k => k + 1)

/-- Spec: "marking that interaction replayed as a side effect". -/
def setReplayedAt : List Interaction → Nat → List Interaction
  | [], _ => []
  | i :: rest, 0 => { i with replayed := true } :: rest
  | i :: rest, n + 1 => i :: setReplayedAt rest n

/-- A matcher is pure if it writes nothing back to the live request. -/
def MatcherPure (m : MatcherFunc) : Prop :=
  ∀ r i, (m r i).2 = r

/-! ## Concrete objects used by the closed theorems below -/

/-- A minimal GET request. -/
def baseReq : HttpRequest :=
  { method := "GET"
    url := "http://example.com/foo"
    proto := "HTTP/1.1"
    protoMajor := 1
    protoMinor := 1
    header := none
    body := .null
    contentLength := 0
    transferEncoding := none
    host := "example.com"
    form := none
    parseFormOk := true
    formAfterParse := none
    postFormAfterParse := none
    trailer := none
    remoteAddr := ""
    requestURI := "" }

/-- The recorded form of `baseReq`. -/
def baseCassReq : CassRequest :=
  { proto := "HTTP/1.1"
    protoMajor := 1
    protoMinor := 1
    contentLength := 0
    transferEncoding := none
    trailer := none
    host := "example.com"
    remoteAddr := ""
    requestURI := ""
    body := ""
    form := none
    headers := none
    url := "http://example.com/foo"
    method := "GET" }

/-- A recorded response with body "A" and a 5ns recorded duration. -/
def respA : CassResponse :=
  { proto := "HTTP/1.1"
    protoMajor := 1
    protoMinor := 1
    transferEncoding := none
    trailer := none
    contentLength := 1
    uncompressed := false
    body := "A"
    headers := none
    status := "200 OK"
    code := 200
    duration := 5 }

/-- Stored interaction A. -/
def iA : Interaction :=
  { id := 0, request := baseCassReq, response := respA
    discardOnSave := false, replayed := false }

/-- Stored interaction B (same request shape, body "B"). -/
def iB : Interaction :=
  { id := 1, request := baseCassReq, response := { respA with body := "B" }
    discardOnSave := false, replayed := false }

/-- A lax matcher accepting everything (as installable via `SetMatcher`). -/
def laxMatcher : MatcherFunc := fun r _ => (true, r)

/-- Cassette holding A then B under the lax matcher,
`replayableInteractions = false`. -/
def cassAB : Cassette :=
  { cassetteNew "ab" with interactions := [iA, iB], matcher := laxMatcher }

/-- A transport for recorders that never perform a real call. -/
def nullTransport : HttpRequest → Except GoErr HttpResponse :=
  fun _ => .error (.transportError "no transport")

/-- The context as seen by an uncancelled request. -/
def ctxLive : CtxState :=
  { errAtHandlerEntry := none, doneAtSelect := false, firesDuringWait := false }

/-- A context that fires only while the latency wait is in progress: not
yet done at the pre-wait `select`, done during the wait. -/
def ctxFires : CtxState :=
  { errAtHandlerEntry := none, doneAtSelect := false, firesDuringWait := true }

/-- Replay-only recorder over a cassette whose single interaction A
matches the live request, with latency simulation enabled. -/
def recC3 : Recorder :=
  { cassette := { cassetteNew "c3" with interactions := [iA], matcher := laxMatcher }
    cassetteName := "c3"
    mode := .replayOnly
    realTransport := nullTransport
    blockUnsafeMethods := false
    skipRequestLatency := false
    passthroughs := []
    hooks := [] }

/-- Record-only recorder with one stored interaction and no hooks. -/
def recC4 : Recorder :=
  { cassette := { cassetteNew "c4" with interactions := [iA] }
    cassetteName := "c4"
    mode := .recordOnly
    realTransport := nullTransport
    blockUnsafeMethods := false
    skipRequestLatency := false
    passthroughs := []
    hooks := [] }

/-- Record-once recorder whose cassette is new (as `getCassette` builds
when the file is absent at construction). -/
def recC4b : Recorder :=
  { cassette := { cassetteNew "c4b" with interactions := [iA] }
    cassetteName := "c4b"
    mode := .recordOnce
    realTransport := nullTransport
    blockUnsafeMethods := false
    skipRequestLatency := false
    passthroughs := []
    hooks := [] }

/-- Record-once recorder whose cassette was loaded from an existing file
(`isNew = false`, as `Load` sets it). -/
def recC4c : Recorder :=
  { cassette := { cassetteNew "c4c" with interactions := [iA], isNew := false }
    cassetteName := "c4c"
    mode := .recordOnce
    realTransport := nullTransport
    blockUnsafeMethods := false
    skipRequestLatency := false
    passthroughs := []
    hooks := [] }

/-- A live response with body "hello". -/
def respHello : HttpResponse :=
  { status := "200 OK"
    statusCode := 200
    proto := "HTTP/1.1"
    protoMajor := 1
    protoMinor := 1
    transferEncoding := none
    trailer := none
    contentLength := 5
    uncompressed := false
    body := "hello"
    headers := none }

/-- A before-response-replay hook rewriting the response body. -/
def modifyBodyHook : Hook :=
  { kind := .beforeResponseReplay
    handler := fun i => .ok { i with response := { i.response with body := "MODIFIED" } } }

/-- Record-only recorder over an empty (new) cassette whose only hook is
`modifyBodyHook`; the real transport answers with `respHello`. -/
def recC5 : Recorder :=
  { cassette := cassetteNew "c5"
    cassetteName := "c5"
    mode := .recordOnly
    realTransport := fun _ => .ok respHello
    blockUnsafeMethods := false
    skipRequestLatency := true
    passthroughs := []
    hooks := [modifyBodyHook] }

/-- An after-capture hook that always fails. -/
def failingHook : Hook :=
  { kind := .afterCapture, handler := fun _ => .error (.hookError "boom") }

/-- An after-capture hook that succeeds (registered after `failingHook` to
show it is never reached). -/
def sndHook : Hook :=
  { kind := .afterCapture, handler := fun i => .ok i }

/-- Record-only recorder with a failing after-capture hook followed by a
succeeding one. -/
def recC6 : Recorder :=
  { cassette := cassetteNew "c6"
    cassetteName := "c6"
    mode := .recordOnly
    realTransport := fun _ => .ok respHello
    blockUnsafeMethods := false
    skipRequestLatency := true
    passthroughs := []
    hooks := [failingHook, sndHook] }

/-- A well-formed serialized cassette document with no interactions. -/
def doc7 : MarshaledCassette := { version := 2, interactions := [] }

/-- Cassette whose second interaction is flagged to be discarded. -/
def rtC1 : Cassette :=
  { cassetteNew "rt1" with interactions := [iA, { iB with discardOnSave := true }] }

/-- Cassette whose single interaction has the non-contiguous id 7. -/
def rtC2 : Cassette :=
  { cassetteNew "rt2" with interactions := [{ iA with id := 7 }] }

/-- Cassette with contiguous ids, nothing discarded, one replayed flag set. -/
def w8cass : Cassette :=
  { cassetteNew "w8" with interactions := [{ iA with replayed := true }] }

/-- A recorded request whose `Trailer` was recorded as an empty (non-nil)
map; every other field matches `baseReq`, which has a nil trailer. -/
def trailCass : CassRequest := { baseCassReq with trailer := some [] }

/-! ## Properties of Save (discarding and renumbering) -/

theorem saveFilterAux_eq_renumber (l : List Interaction) :
    ∀ n, saveFilterAux n l
      = renumberFrom n (l.filter (fun i => !i.discardOnSave)) := by
  induction l with
  | nil => intro n; rfl
  | cons i rest ih =>
    intro n
    cases h : i.discardOnSave with
    | true => simp [saveFilterAux, List.filter_cons, h, ih]
    | false => simp [saveFilterAux, List.filter_cons, h, ih, renumberFrom]

theorem renumberFrom_map_id (l : List Interaction) :
    ∀ n, (renumberFrom n l).map (fun i => i.id) = List.range' n l.length := by
  induction l with
  | nil => intro n; rfl
  | cons i rest ih => intro n; simp [renumberFrom, List.range'_succ, ih]

theorem renumberFrom_length (l : List Interaction) :
    ∀ n, (renumberFrom n l).length = l.length := by
  induction l with
  | nil => intro n; rfl
  | cons i rest ih => intro n; simp [renumberFrom, ih]

theorem filter_keep_length (l : List Interaction) :
    (l.filter (fun i => !i.discardOnSave)).length
      = l.length - l.countP (fun i => i.discardOnSave) := by
  induction l with
  | nil => rfl
  | cons i rest ih =>
    have hle : rest.countP (fun i => i.discardOnSave) ≤ rest.length :=
      List.countP_le_length _
    cases h : i.discardOnSave <;>
      (simp [List.filter_cons, List.countP_cons, h, ih]; try omega)

/-- C9: `Cassette.Save` drops exactly the interactions flagged
`DiscardOnSave` and renumbers the survivors contiguously from 0 in stored
order, so the persisted document has `N = original − discarded` many
interactions whose ids are exactly `0..N-1`. -/
theorem save_discards_and_renumbers (c : Cassette) :
    c.save.1.interactions
        = renumberFrom 0 (c.interactions.filter (fun i => !i.discardOnSave))
    ∧ c.save.2.interactions
        = (renumberFrom 0 (c.interactions.filter (fun i => !i.discardOnSave))).map
            marshalInteraction
    ∧ c.save.2.interactions.map (fun mi => mi.id)
        = List.range c.save.2.interactions.length
    ∧ c.save.2.interactions.length
        = c.interactions.length - c.interactions.countP (fun i => i.discardOnSave) := by
  have h1 := saveFilterAux_eq_renumber c.interactions 0
  have hlen : c.save.2.interactions.length
      = c.interactions.length - c.interactions.countP (fun i => i.discardOnSave) := by
    simp only [Cassette.save, h1, List.length_map, renumberFrom_length]
    exact filter_keep_length c.interactions
  refine ⟨by simp [Cassette.save, h1], by simp [Cassette.save, h1], ?_, hlen⟩
  have hmm : (c.save.2.interactions).map (fun mi => mi.id)
      = (saveFilterAux 0 c.interactions).map (fun i => i.id) := by
    simp only [Cassette.save, List.map_map]
    exact List.map_congr_left (fun a _ => rfl)
  rw [hmm, h1, renumberFrom_map_id]
  rw [show (c.save.2.interactions).length
      = (c.interactions.filter (fun i => !i.discardOnSave)).length by
    simp [Cassette.save, h1, renumberFrom_length]]
  exact (List.range_eq_range' _).symm

/-! ## Properties of the serialization round trip -/

theorem interaction_set_id_eq (i : Interaction) (n : Nat) (h : i.id = n) :
    { i with id := n } = i := by
  cases i
  simp_all

theorem renumberFrom_eq_self (l : List Interaction) :
    ∀ n, l.map (fun i => i.id) = List.range' n l.length → renumberFrom n l = l := by
  induction l with
  | nil => intro n _; rfl
  | cons i rest ih =>
    intro n h
    rw [List.length_cons, List.range'_succ] at h
    simp only [List.map_cons, List.cons.injEq] at h
    simp [renumberFrom, interaction_set_id_eq i n h.1, ih (n + 1) h.2]

theorem unmarshal_marshal (i : Interaction) :
    unmarshalInteraction (marshalInteraction i)
      = { i with discardOnSave := false, replayed := false } := by
  cases i
  rfl

/-- C8 (counterexample): the round trip is not the identity on arbitrary
cassettes.  Serializing `rtC1` (whose second interaction is flagged
`DiscardOnSave`) and loading the result yields one interaction where the
original had two; serializing `rtC2` (whose interaction carries id 7)
yields id 0 after the reload. -/
theorem round_trip_cex :
    (cassetteLoad "rt1" (some rtC1.save.2)).map (fun c => c.interactions.length)
        = .ok 1
    ∧ rtC1.interactions.length = 2
    ∧ (cassetteLoad "rt2" (some rtC2.save.2)).map
          (fun c => c.interactions.map (fun i => i.id)) = .ok [0]
    ∧ rtC2.interactions.map (fun i => i.id) = [7]
    ∧ (1 : Nat) ≠ 2 ∧ ([0] : List Nat) ≠ [7] :=
  ⟨rfl, rfl, rfl, rfl, by decide, by decide⟩

/-- C8 (amended): for a cassette of the supported version none of whose
interactions is flagged to be discarded and whose ids are already the
contiguous `0..N-1` (as `AddInteraction` maintains), deserializing the
serialization reproduces the same interactions in the same order with
identical `id`, `request` and `response`, while the transient fields
`DiscardOnSave` and `replayed` are never persisted and are false after the
load. -/
theorem round_trip_amended (c : Cassette)
    (hv : c.version = cassetteFormatVersion)
    (hd : ∀ i ∈ c.interactions, i.discardOnSave = false)
    (hid : c.interactions.map (fun i => i.id) = List.range c.interactions.length) :
    ∃ loaded, cassetteLoad c.name (some c.save.2) = .ok loaded
      ∧ loaded.interactions
          = c.interactions.map
              (fun i => { i with discardOnSave := false, replayed := false }) := by
  have hfil : c.interactions.filter (fun i => !i.discardOnSave) = c.interactions :=
    List.filter_eq_self.mpr (fun i hmem => by simp [hd i hmem])
  have hsf : saveFilterAux 0 c.interactions = c.interactions := by
    rw [saveFilterAux_eq_renumber, hfil]
    exact renumberFrom_eq_self _ 0 (by rw [hid, List.range_eq_range'])
  have hmap : (c.interactions.map marshalInteraction).map unmarshalInteraction
      = c.interactions.map
          (fun i => { i with discardOnSave := false, replayed := false }) := by
    rw [List.map_map]
    exact List.map_congr_left (fun i _ => unmarshal_marshal i)
  have hload : cassetteLoad c.name (some c.save.2)
      = .ok { cassetteNew c.name with
                isNew := false
                version := c.version
                interactions :=
                  (c.interactions.map marshalInteraction).map unmarshalInteraction
                nextInteractionId :=
                  ((c.interactions.map marshalInteraction).map
                      unmarshalInteraction).length } := by
    simp only [cassetteLoad, Cassette.save, hsf]
    rw [if_neg (by simp [hv, cassetteFormatVersion])]
  exact ⟨_, hload, hmap⟩

/-- Witness for C8 at the concrete cassette `w8cass` (one interaction,
`replayed` set, contiguous ids). -/
theorem round_trip_amended_witness :
    ∃ loaded, cassetteLoad w8cass.name (some w8cass.save.2) = .ok loaded
      ∧ loaded.interactions
          = w8cass.interactions.map
              (fun i => { i with discardOnSave := false, replayed := false }) :=
  round_trip_amended w8cass rfl (by decide) (by decide)

/-! ## Properties of Load and getCassette -/

/-- C7 (counterexample): `cassette.Load` on an absent backing file fails
with the raw `os.ReadFile` error, which is not `ErrCassetteNotFound`. -/
theorem load_missing_file_cex :
    cassetteLoad "missing" none = .error .osFileNotExist
    ∧ GoErr.osFileNotExist ≠ GoErr.cassetteNotFound :=
  ⟨rfl, by decide⟩

/-- C7 (amended): `cassette.Load` on an absent file fails with the
file-read error; `ErrCassetteNotFound` is produced by the *recorder's*
`getCassette` in ReplayOnly mode when the file is absent; a version
mismatch fails with `ErrUnsupportedCassetteFormat`; a successful load sets
`IsNew = false` and derives the next-id counter from the number of loaded
interactions. -/
theorem load_behavior (name : String) (d : MarshaledCassette) (hn : name ≠ "") :
    cassetteLoad name none = .error .osFileNotExist
    ∧ getCassette .replayOnly name false none = .error .cassetteNotFound
    ∧ (d.version ≠ cassetteFormatVersion →
        cassetteLoad name (some d) = .error .unsupportedCassetteFormat)
    ∧ (d.version = cassetteFormatVersion →
        ∃ c, cassetteLoad name (some d) = .ok c
          ∧ c.isNew = false
          ∧ c.nextInteractionId = c.interactions.length
          ∧ c.interactions = d.interactions.map unmarshalInteraction) := by
  refine ⟨rfl, ?_, ?_, ?_⟩
  · simp [getCassette, hn]
  · intro hv
    simp only [cassetteLoad]
    rw [if_pos (by simp [hv])]
  · intro hv
    have hload : cassetteLoad name (some d)
        = .ok { cassetteNew name with
                  isNew := false
                  version := d.version
                  interactions := d.interactions.map unmarshalInteraction
                  nextInteractionId := (d.interactions.map unmarshalInteraction).length } := by
      simp only [cassetteLoad]
      rw [if_neg (by simp [hv, cassetteFormatVersion])]
    exact ⟨_, hload, rfl, rfl, rfl⟩

/-- Witness for C7 at the concrete name "w7" and document `doc7`. -/
theorem load_behavior_witness :
    getCassette .replayOnly "w7" false none = .error .cassetteNotFound :=
  (load_behavior "w7" doc7 (by decide)).2.1

/-! ## Properties of getInteraction (first-match-wins) -/

theorem scan_none (m : MatcherFunc) (replayable : Bool) (hp : MatcherPure m) :
    ∀ (r : HttpRequest) (l : List Interaction),
      firstAcceptedIdx replayable m r l = none →
      scanInteractions m replayable r l = (.error .interactionNotFound, l, r) := by
  intro r l
  induction l generalizing r with
  | nil => intro _; rfl
  | cons i rest ih =>
    intro h
    rcases hE : m r i.request with ⟨b, r2⟩
    have hr2 : r2 = r := by
      have hpp := hp r i.request
      rw [hE] at hpp
      exact hpp
    have hE2 : m r i.request = (b, r) := by rw [hE, hr2]
    cases hc : (replayable || !i.replayed) with
    | false =>
      have hrest : firstAcceptedIdx replayable m r rest = none := by
        simp only [firstAcceptedIdx, hE2, hc] at h
        simpa using h
      simp only [scanInteractions, hc]
      simp [ih r hrest]
    | true =>
      have hb : b = false := by
        cases hbb : b
        · rfl
        · exfalso
          simp [firstAcceptedIdx, hE2, hc, hbb] at h
      have hrest : firstAcceptedIdx replayable m r rest = none := by
        simp only [firstAcceptedIdx, hE2, hc, hb] at h
        simpa using h
      simp only [scanInteractions, hc, hE2, hb]
      simp [ih r hrest]

theorem scan_some (m : MatcherFunc) (replayable : Bool) (hp : MatcherPure m) :
    ∀ (r : HttpRequest) (l : List Interaction) (j : Nat) (i : Interaction),
      firstAcceptedIdx replayable m r l = some j →
      l.get? j = some i →
      scanInteractions m replayable r l
        = (.ok { i with replayed := true }, setReplayedAt l j, r) := by
  intro r l
  induction l generalizing r with
  | nil => intro j i h _; simp [firstAcceptedIdx] at h
  | cons a rest ih =>
    intro j i h hget
    rcases hE : m r a.request with ⟨b, r2⟩
    have hr2 : r2 = r := by
      have hpp := hp r a.request
      rw [hE] at hpp
      exact hpp
    have hE2 : m r a.request = (b, r) := by rw [hE, hr2]
    by_cases hc : ((replayable || !a.replayed) && b) = true
    · obtain ⟨hc1, hb⟩ := (Bool.and_eq_true _ _).mp hc
      have hj : j = 0 := by
        simp only [firstAcceptedIdx, hE2] at h
        rw [if_pos (by simp [hc1, hb])] at h
        exact (Option.some.injEq _ _).mp h |>.symm
      have hia : i = a := by
        rw [hj] at hget
        simpa [List.get?] using hget.symm
      rw [hj, hia]
      simp [scanInteractions, hc1, hE2, hb, setReplayedAt]
    · have h2 : Option.map (fun k => k + 1) (firstAcceptedIdx replayable m r rest)
          = some j := by
        simp only [firstAcceptedIdx, hE2] at h
        rw [if_neg (by simpa using hc)] at h
        exact h
      rcases Option.map_eq_some'.mp h2 with ⟨k, hk, hjk⟩
      have hget2 : rest.get? k = some i := by
        rw [← hjk] at hget
        simpa [List.get?] using hget
      rw [← hjk]
      cases hc1 : (replayable || !a.replayed) with
      | false =>
        simp only [scanInteractions, hc1]
        simp [ih r k i hk hget2, setReplayedAt]
      | true =>
        have hb : b = false := by
          cases hbb : b
          · rfl
          · exfalso
            apply hc
            rw [hc1, hbb]
            rfl
        simp only [scanInteractions, hc1, hE2, hb]
        simp [ih r k i hk hget2, setReplayedAt]

/-- C1: `GetInteraction` returns the first stored interaction that is
still allowed to replay and is accepted by the matcher, marking exactly
that interaction replayed; when none qualifies it fails with
`ErrInteractionNotFound` and marks nothing.  In particular, on a cassette
holding A then B (both accepted, `replayableInteractions = false`) three
consecutive lookups yield A, then B, then `ErrInteractionNotFound`. -/
theorem getInteraction_first_match (c : Cassette) (r : HttpRequest)
    (hp : MatcherPure c.matcher) :
    (firstAcceptedIdx c.replayableInteractions c.matcher (normalizeBody r)
          c.interactions = none →
        c.getInteraction r = (.error .interactionNotFound, c, normalizeBody r))
    ∧ (∀ j i,
        firstAcceptedIdx c.replayableInteractions c.matcher (normalizeBody r)
            c.interactions = some j →
        c.interactions.get? j = some i →
        c.getInteraction r
          = (.ok { i with replayed := true },
             { c with interactions := setReplayedAt c.interactions j },
             normalizeBody r))
    ∧ ((cassAB.getInteraction baseReq).1 = .ok { iA with replayed := true }
       ∧ ((cassAB.getInteraction baseReq).2.1.getInteraction baseReq).1
           = .ok { iB with replayed := true }
       ∧ (((cassAB.getInteraction baseReq).2.1.getInteraction
              baseReq).2.1.getInteraction baseReq).1
           = .error .interactionNotFound) := by
  refine ⟨?_, ?_, rfl, rfl, rfl⟩
  · intro h
    simp only [Cassette.getInteraction]
    rw [scan_none c.matcher c.replayableInteractions hp _ _ h]
  · intro j i hj hi
    simp only [Cassette.getInteraction]
    rw [scan_some c.matcher c.replayableInteractions hp _ _ j i hj hi]

/-- Witness for C1: the first lookup on `cassAB` (lax matcher is pure)
returns A. -/
theorem getInteraction_first_match_witness :
    (cassAB.getInteraction baseReq).1 = .ok { iA with replayed := true } :=
  (getInteraction_first_match cassAB baseReq (fun _ _ => rfl)).2.2.1

/-! ## Properties of the default matcher -/

theorem string_length_eq_zero (s : String) : s.length = 0 ↔ s = "" := by
  constructor
  · intro h
    cases s with
    | mk data =>
      cases data with
      | nil => rfl
      | cons c cs => simp [String.length] at h
  · intro h
    simp [h]

theorem bool_guard (c : Bool) (b : Bool) :
    (if c = true then false else b) = (!c && b) := by
  cases c <;> simp

theorem ite_and_factor (c : Prop) [Decidable c] (a1 a2 b t : Bool) :
    (if c then a1 && (a2 && t) else b && t)
      = ((if c then a1 && a2 else b) && t) := by
  split <;> simp [Bool.and_assoc]

theorem fst_ite (c : Prop) [Decidable c] (a b : Bool × HttpRequest) :
    (if c then a else b).1 = if c then a.1 else b.1 := by
  split <;> rfl

theorem matcherTail_eq (r : HttpRequest) (i : CassRequest) :
    (matcherTail r i).1
      = (deepEqualContentsMap r.form i.form
          && deepEqualContentsMap r.trailer i.trailer
          && (r.remoteAddr == i.remoteAddr)
          && (r.requestURI == i.requestURI)) := by
  unfold matcherTail
  repeat' split <;> simp_all

/-- The default matcher, flattened into one boolean conjunction of its
individual comparisons (proved equal to the sequential early-return chain
of the source below). -/
theorem default_matcher_eq (ig : List String) (r : HttpRequest) (i : CassRequest) :
    (defaultMatcherFn ig r i).1 =
      ((r.method == i.method) && (r.url == i.url) && (r.proto == i.proto)
        && (r.protoMajor == i.protoMajor) && (r.protoMinor == i.protoMinor)
        && deepEqualContentsMap (deleteHeaders ig r.header) (deleteHeaders ig i.headers)
        && (match r.body with
            | .null => i.body.length == 0
            | b => b.readRemaining == i.body)
        && (r.contentLength == i.contentLength)
        && deepEqualContentsList r.transferEncoding i.transferEncoding
        && (r.host == i.host)
        && (if r.method == "POST" || r.method == "PUT" || r.method == "PATCH"
            then r.parseFormOk && deepEqualContentsMap r.formAfterParse i.form
            else deepEqualContentsMap r.form i.form)
        && deepEqualContentsMap r.trailer i.trailer
        && (r.remoteAddr == i.remoteAddr) && (r.requestURI == i.requestURI)) := by
  cases hb : r.body <;>
    simp only [defaultMatcherFn, matcherAfterBody, bodyMatches, hb, fst_ite,
      bool_guard, matcherTail_eq, bne, Bool.not_not, Bool.and_assoc] <;>
    simp [Bool.and_assoc, ite_and_factor]

theorem body_clause_iff (r : HttpRequest) (i : CassRequest) :
    ((match r.body with
      | GoBody.null => i.body.length == 0
      | b => b.readRemaining == i.body) = true)
    ↔ ((r.body.isNull = true ∧ i.body = "")
       ∨ (r.body.isNull = false ∧ r.body.readRemaining = i.body)) := by
  cases r.body <;>
    simp [GoBody.isNull, GoBody.readRemaining, string_length_eq_zero]

theorem form_clause_iff (r : HttpRequest) (i : CassRequest) :
    ((if r.method == "POST" || r.method == "PUT" || r.method == "PATCH"
      then r.parseFormOk && deepEqualContentsMap r.formAfterParse i.form
      else deepEqualContentsMap r.form i.form) = true)
    ↔ (((r.method = "POST" ∨ r.method = "PUT" ∨ r.method = "PATCH")
         ∧ r.parseFormOk = true
         ∧ deepEqualContentsMap r.formAfterParse i.form = true)
       ∨ (¬(r.method = "POST" ∨ r.method = "PUT" ∨ r.method = "PATCH")
         ∧ deepEqualContentsMap r.form i.form = true)) := by
  by_cases hP : r.method = "POST" ∨ r.method = "PUT" ∨ r.method = "PATCH"
  · rw [if_pos (by simp only [Bool.or_eq_true, beq_iff_eq, or_assoc]; exact hP)]
    simp [hP, Bool.and_eq_true]
  · rw [if_neg (by simp only [Bool.or_eq_true, beq_iff_eq, or_assoc]; exact hP)]
    simp [hP]

/-- C2: the default matcher accepts exactly when all twelve comparisons of
the specification hold — equal methods, URL strings, protocol and
versions, headers after dropping the ignore-list (nil/empty equivalent),
bodies byte-for-byte (a nil live body only against an empty stored body),
content lengths, transfer encodings, hosts, form values (parsed only for
POST/PUT/PATCH), trailers, remote addresses and request targets.  In
particular a live request with a nil Trailer matches a stored request
whose Trailer is an empty map. -/
theorem default_matcher_iff (ig : List String) (r : HttpRequest) (i : CassRequest) :
    ((defaultMatcherFn ig r i).1 = true ↔
      (r.method = i.method
       ∧ r.url = i.url
       ∧ r.proto = i.proto
       ∧ r.protoMajor = i.protoMajor
       ∧ r.protoMinor = i.protoMinor
       ∧ deepEqualContentsMap (deleteHeaders ig r.header) (deleteHeaders ig i.headers)
           = true
       ∧ ((r.body.isNull = true ∧ i.body = "")
          ∨ (r.body.isNull = false ∧ r.body.readRemaining = i.body))
       ∧ r.contentLength = i.contentLength
       ∧ deepEqualContentsList r.transferEncoding i.transferEncoding = true
       ∧ r.host = i.host
       ∧ (((r.method = "POST" ∨ r.method = "PUT" ∨ r.method = "PATCH")
             ∧ r.parseFormOk = true
             ∧ deepEqualContentsMap r.formAfterParse i.form = true)
          ∨ (¬(r.method = "POST" ∨ r.method = "PUT" ∨ r.method = "PATCH")
             ∧ deepEqualContentsMap r.form i.form = true))
       ∧ deepEqualContentsMap r.trailer i.trailer = true
       ∧ r.remoteAddr = i.remoteAddr
       ∧ r.requestURI = i.requestURI))
    ∧ ((defaultMatcherFn [] baseReq trailCass).1 = true
       ∧ baseReq.trailer = none
       ∧ trailCass.trailer = some []) := by
  refine ⟨?_, by decide, rfl, rfl⟩
  rw [default_matcher_eq]
  simp only [Bool.and_eq_true, beq_iff_eq]
  rw [body_clause_iff, form_clause_iff]
  tauto

/-! ## Properties of RoundTrip (latency wait and cancellation) -/

theorem roundTrip_nonpass (rec : Recorder) (req : HttpRequest) (ctx : CtxState)
    (elapsed : Nat)
    (hmode : (rec.mode == Mode.passthrough) = false)
    (hpass : rec.passthroughs.any (fun p => p req) = false) :
    rec.roundTrip req ctx elapsed
      = match rec.requestHandler req ctx elapsed with
        | (.error e, rec2, _) => (.error e, rec2, 0)
        | (.ok interaction, rec2, _) =>
          match applyHooks rec2.hooks .beforeResponseReplay interaction with
          | .error e => (.error e, rec2, 0)
          | .ok i2 =>
            if ctx.doneAtSelect then (.error .ctxCanceled, rec2, 0)
            else (.ok (getHTTPResponse i2), rec2,
                  if rec.skipRequestLatency then 0 else i2.response.duration) := by
  unfold Recorder.roundTrip
  rw [hmode, hpass]
  simp

/-- C3 (counterexample): a context that is not yet done at the pre-wait
`select` but fires during the latency wait does *not* abort the wait: the
call still blocks for the full recorded duration (5) and returns the
replayed response, not the cancellation error. -/
theorem latency_wait_not_raced_cex :
    ctxFires.firesDuringWait = true
    ∧ (recC3.roundTrip baseReq ctxFires 0).1
        = .ok (getHTTPResponse { iA with replayed := true })
    ∧ (recC3.roundTrip baseReq ctxFires 0).2.2 = 5
    ∧ (Except.ok (getHTTPResponse { iA with replayed := true })
        : Except GoErr HttpResponse) ≠ .error .ctxCanceled :=
  ⟨rfl, rfl, rfl, fun h => Except.noConfusion h⟩

/-- C3 (amended): the cancellation context is consulted exactly once, in
the `select` immediately before the latency wait.  If the context is
already done there, RoundTrip returns the context error without waiting;
otherwise the full recorded duration is waited and the replayed response
returned — whether or not the context fires during the wait (the result is
invariant under `firesDuringWait`). -/
theorem roundTrip_cancellation_checked_before_wait (rec : Recorder)
    (req : HttpRequest) (ctx : CtxState) (elapsed : Nat) (i i2 : Interaction)
    (hmode : (rec.mode == Mode.passthrough) = false)
    (hpass : rec.passthroughs.any (fun p => p req) = false)
    (hh : (rec.requestHandler req ctx elapsed).1 = .ok i)
    (hhk : applyHooks (rec.requestHandler req ctx elapsed).2.1.hooks
        .beforeResponseReplay i = .ok i2) :
    (∀ b : Bool, rec.roundTrip req { ctx with firesDuringWait := b } elapsed
        = rec.roundTrip req ctx elapsed)
    ∧ (ctx.doneAtSelect = true →
        (rec.roundTrip req ctx elapsed).1 = .error .ctxCanceled
        ∧ (rec.roundTrip req ctx elapsed).2.2 = 0)
    ∧ (ctx.doneAtSelect = false →
        (rec.roundTrip req ctx elapsed).1 = .ok (getHTTPResponse i2)
        ∧ (rec.roundTrip req ctx elapsed).2.2
            = (if rec.skipRequestLatency then 0 else i2.response.duration)) := by
  rcases hrt : rec.requestHandler req ctx elapsed with ⟨res, rec2, r2⟩
  rw [hrt] at hh hhk
  simp only at hh hhk
  subst hh
  have hroundTrip := roundTrip_nonpass rec req ctx elapsed hmode hpass
  rw [hrt] at hroundTrip
  simp only [hhk] at hroundTrip
  refine ⟨fun b => rfl, ?_, ?_⟩
  · intro hd
    rw [hroundTrip]
    simp [hd]
  · intro hd
    rw [hroundTrip]
    simp [hd]

/-- Witness for C3 at the concrete replay-only recorder `recC3` with an
uncancelled context. -/
theorem roundTrip_cancellation_checked_before_wait_witness :
    (recC3.roundTrip baseReq ctxLive 0).1
      = .ok (getHTTPResponse { iA with replayed := true }) :=
  ((roundTrip_cancellation_checked_before_wait recC3 baseReq ctxLive 0
      { iA with replayed := true } { iA with replayed := true }
      rfl rfl rfl rfl).2.2 rfl).1

/-! ## Properties of Stop (persistence policy) -/

theorem applyHooksAux_ok (kind : HookKind) (hooks : List Hook)
    (hok : ∀ h ∈ hooks, ∀ i, ∃ i2, h.handler i = .ok i2) :
    ∀ (idx : Nat) (i : Interaction),
      ∃ i2, (applyHooksAux kind hooks idx i).1 = .ok i2 := by
  induction hooks with
  | nil => intro idx i; exact ⟨i, rfl⟩
  | cons h rest ih =>
    intro idx i
    have hok2 : ∀ h2 ∈ rest, ∀ i, ∃ i2, h2.handler i = .ok i2 :=
      fun h2 hmem => hok h2 (List.mem_cons_of_mem h hmem)
    cases hk : (h.kind == kind) with
    | false =>
      simp only [applyHooksAux, hk]
      exact ih hok2 (idx + 1) i
    | true =>
      obtain ⟨i2, hi2⟩ := hok h (List.mem_cons_self h rest) i
      obtain ⟨i3, hi3⟩ := ih hok2 (idx + 1) i2
      refine ⟨i3, ?_⟩
      simp only [applyHooksAux, hk, hi2, if_true]
      exact hi3

theorem runHooksOverList_ok (hooks : List Hook) (kind : HookKind)
    (hok : ∀ h ∈ hooks, ∀ i, ∃ i2, h.handler i = .ok i2) :
    ∀ l : List Interaction, ∃ l2, runHooksOverList hooks kind l = .ok l2 := by
  intro l
  induction l with
  | nil => exact ⟨[], rfl⟩
  | cons i rest ih =>
    obtain ⟨i2, hi2⟩ := applyHooksAux_ok kind hooks hok 0 i
    obtain ⟨rest2, hrest2⟩ := ih
    refine ⟨i2 :: rest2, ?_⟩
    simp only [runHooksOverList, applyHooks, hi2, hrest2]

/-- C4 (counterexample): Stop decides RecordOnce persistence from
`os.Stat` on the cassette file *when Stop runs*, not from whether the
cassette was new at the start.  `recC4b` has a new cassette
(`isNew = true`), yet with the file present at stop time nothing is
persisted; `recC4c` has a loaded cassette (`isNew = false`), yet with the
file absent at stop time Stop does persist. -/
theorem stop_new_at_start_cex :
    recC4b.mode = .recordOnce
    ∧ recC4b.cassette.isNew = true
    ∧ recC4b.stop true = .ok (recC4b, none)
    ∧ recC4c.mode = .recordOnce
    ∧ recC4c.cassette.isNew = false
    ∧ (recC4c.stop false).map (fun p => p.2.isSome) = .ok true :=
  ⟨rfl, rfl, rfl, rfl, rfl, rfl⟩

/-- C4 (amended): when no hook fails, Stop persists the cassette exactly
when the mode is RecordOnly or ReplayWithNewEpisodes (always), or the mode
is RecordOnce and the cassette file does not exist at the moment Stop runs
— for RecordOnce this coincides with "the cassette was new at the start"
whenever the file is not created or deleted externally during the run,
since `getCassette` builds a new cassette exactly when the file is absent
and the library itself writes the file only in Stop (the second conjunct
states that bridge).  Persistence runs the before-save hooks over every
interaction first and writes the hook-transformed, discard-filtered,
renumbered document; in every case the on-recorder-stop hooks then run
over all current interactions. -/
theorem stop_persists_iff (rec : Recorder) (existsAtStop : Bool)
    (hok : ∀ h ∈ rec.hooks, ∀ i, ∃ i2, h.handler i = .ok i2) :
    ∃ (recMid : Recorder) (data : Option MarshaledCassette)
      (final : List Interaction),
      (data.isSome = true ↔
        (rec.mode = .recordOnly ∨ rec.mode = .replayWithNewEpisodes ∨
          (rec.mode = .recordOnce ∧ existsAtStop = false)))
      ∧ (rec.mode = .recordOnce → rec.cassette.isNew = !existsAtStop →
          (data.isSome = true ↔ rec.cassette.isNew = true))
      ∧ (∀ d, data = some d →
          ∃ l, runHooksOverList rec.hooks .beforeSave rec.cassette.interactions
                = .ok l
            ∧ recMid = { rec with cassette :=
                { rec.cassette with interactions := saveFilterAux 0 l } }
            ∧ d = { version := rec.cassette.version,
                    interactions := (saveFilterAux 0 l).map marshalInteraction })
      ∧ (data = none → recMid = rec)
      ∧ runHooksOverList recMid.hooks .onRecorderStop recMid.cassette.interactions
          = .ok final
      ∧ rec.stop existsAtStop
          = .ok ({ recMid with cassette :=
                    { recMid.cassette with interactions := final } }, data) := by
  obtain ⟨l, hl⟩ := runHooksOverList_ok rec.hooks .beforeSave hok
    rec.cassette.interactions
  have hpc : rec.persistCassette
      = .ok ({ rec with cassette :=
                { rec.cassette with interactions := saveFilterAux 0 l } },
             { version := rec.cassette.version,
               interactions := (saveFilterAux 0 l).map marshalInteraction }) := by
    simp only [Recorder.persistCassette, hl, Cassette.save]
  have hcond :
      (rec.mode == Mode.recordOnly || rec.mode == Mode.replayWithNewEpisodes)
          = true
        ∨ ((rec.mode == Mode.recordOnly || rec.mode == Mode.replayWithNewEpisodes)
          = false) := by
    cases (rec.mode == Mode.recordOnly || rec.mode == Mode.replayWithNewEpisodes) with
    | false => exact Or.inr rfl
    | true => exact Or.inl rfl
  rcases hcond with hc | hc
  · -- always-persist modes
    obtain ⟨final, hfin⟩ := runHooksOverList_ok rec.hooks .onRecorderStop hok
      (saveFilterAux 0 l)
    refine ⟨{ rec with cassette :=
                { rec.cassette with interactions := saveFilterAux 0 l } },
            some { version := rec.cassette.version,
                   interactions := (saveFilterAux 0 l).map marshalInteraction },
            final, ?_, ?_, ?_, ?_, hfin, ?_⟩
    · simp only [Option.isSome_some, true_iff]
      rcases Bool.or_eq_true _ _ |>.mp hc with h1 | h1
      · exact Or.inl (by simpa using h1)
      · exact Or.inr (Or.inl (by simpa using h1))
    · intro hm2 _
      rw [hm2] at hc
      simp at hc
    · intro d hd
      refine ⟨l, hl, rfl, ?_⟩
      simpa using hd.symm
    · intro hnone
      simp at hnone
    · simp only [Recorder.stop, hc, if_true, hpc]
      simp only [hfin]
  · -- RecordOnce (persist only when the file is absent) and the
    -- non-persisting modes
    cases hro : (rec.mode == Mode.recordOnce && !existsAtStop) with
    | true =>
      obtain ⟨final, hfin⟩ := runHooksOverList_ok rec.hooks .onRecorderStop hok
        (saveFilterAux 0 l)
      have hm : rec.mode = Mode.recordOnce :=
        by simpa using (Bool.and_eq_true _ _ |>.mp hro).1
      have he : existsAtStop = false :=
        by simpa using (Bool.and_eq_true _ _ |>.mp hro).2
      refine ⟨{ rec with cassette :=
                  { rec.cassette with interactions := saveFilterAux 0 l } },
              some { version := rec.cassette.version,
                     interactions := (saveFilterAux 0 l).map marshalInteraction },
              final, ?_, ?_, ?_, ?_, hfin, ?_⟩
      · simp only [Option.isSome_some, true_iff]
        exact Or.inr (Or.inr ⟨hm, he⟩)
      · intro _ hb
        simp only [Option.isSome_some, true_iff]
        rw [hb, he]
        rfl
      · intro d hd
        refine ⟨l, hl, rfl, ?_⟩
        simpa using hd.symm
      · intro hnone
        simp at hnone
      · simp only [Recorder.stop, hc, hro, if_true, hpc]
        simp only [Bool.false_eq_true, if_false, hfin]
    | false =>
      obtain ⟨final, hfin⟩ := runHooksOverList_ok rec.hooks .onRecorderStop hok
        rec.cassette.interactions
      refine ⟨rec, none, final, ?_, ?_, ?_, fun _ => rfl, hfin, ?_⟩
      · simp only [Option.isSome_none, Bool.false_eq_true, false_iff]
        rintro (h1 | h1 | ⟨h1, h2⟩)
        · rw [h1] at hc
          simp at hc
        · rw [h1] at hc
          simp at hc
        · rw [h1, h2] at hro
          simp at hro
      · intro hm2 hb
        have hex : existsAtStop = true := by
          cases hexx : existsAtStop
          · rw [hm2, hexx] at hro
            simp at hro
          · rfl
        rw [hb, hex]
        simp
      · intro d hd
        simp at hd
      · simp only [Recorder.stop, hc, hro, Bool.false_eq_true, if_false, hfin]

/-- Witness for C4 at the record-only recorder `recC4` with no hooks and
an absent cassette file. -/
theorem stop_persists_iff_witness :
    ∃ (recMid : Recorder) (data : Option MarshaledCassette)
      (final : List Interaction),
      (data.isSome = true ↔
        (recC4.mode = .recordOnly ∨ recC4.mode = .replayWithNewEpisodes ∨
          (recC4.mode = .recordOnce ∧ (false : Bool) = false)))
      ∧ (recC4.mode = .recordOnce → recC4.cassette.isNew = !(false : Bool) →
          (data.isSome = true ↔ recC4.cassette.isNew = true))
      ∧ (∀ d, data = some d →
          ∃ l, runHooksOverList recC4.hooks .beforeSave recC4.cassette.interactions
                = .ok l
            ∧ recMid = { recC4 with cassette :=
                { recC4.cassette with interactions := saveFilterAux 0 l } }
            ∧ d = { version := recC4.cassette.version,
                    interactions := (saveFilterAux 0 l).map marshalInteraction })
      ∧ (data = none → recMid = recC4)
      ∧ runHooksOverList recMid.hooks .onRecorderStop recMid.cassette.interactions
          = .ok final
      ∧ recC4.stop false
          = .ok ({ recMid with cassette :=
                    { recMid.cassette with interactions := final } }, data) :=
  stop_persists_iff recC4 false
    (fun h hmem => absurd hmem (List.not_mem_nil h))

/-! ## Properties of the hook pipeline around RoundTrip -/

/-- C5 (counterexample): in the record path — a fresh cassette, nothing
replayed — the freshly recorded interaction's response is returned *with*
the before-response-replay hooks applied: the recorded "hello" body comes
back as "MODIFIED". -/
theorem beforeResponseReplay_on_fresh_cex :
    recC5.cassette.interactions = []
    ∧ (recC5.roundTrip baseReq ctxLive 7).1.map (fun resp => resp.body)
        = .ok "MODIFIED"
    ∧ respHello.body = "hello"
    ∧ ("MODIFIED" : String) ≠ "hello" :=
  ⟨rfl, rfl, rfl, by decide⟩

/-- C5 (amended): the before-response-replay hooks run on *every*
interaction coming out of `requestHandler` in a non-passthrough call —
replayed or freshly recorded — immediately before it is converted into the
response returned to the caller; a hook error aborts the call. -/
theorem beforeResponseReplay_runs_on_every_result (rec : Recorder)
    (req : HttpRequest) (ctx : CtxState) (elapsed : Nat) (i : Interaction)
    (hmode : (rec.mode == Mode.passthrough) = false)
    (hpass : rec.passthroughs.any (fun p => p req) = false)
    (hh : (rec.requestHandler req ctx elapsed).1 = .ok i)
    (hsel : ctx.doneAtSelect = false) :
    (∀ i2, applyHooks (rec.requestHandler req ctx elapsed).2.1.hooks
          .beforeResponseReplay i = .ok i2 →
        (rec.roundTrip req ctx elapsed).1 = .ok (getHTTPResponse i2))
    ∧ (∀ e, applyHooks (rec.requestHandler req ctx elapsed).2.1.hooks
          .beforeResponseReplay i = .error e →
        (rec.roundTrip req ctx elapsed).1 = .error e) := by
  rcases hrt : rec.requestHandler req ctx elapsed with ⟨res, rec2, r2⟩
  rw [hrt] at hh
  simp only at hh
  subst hh
  have hroundTrip := roundTrip_nonpass rec req ctx elapsed hmode hpass
  rw [hrt] at hroundTrip
  constructor
  · intro i2 hhk
    simp only at hhk
    rw [hroundTrip]
    simp only [hhk, hsel]
    simp
  · intro e hhk
    simp only at hhk
    rw [hroundTrip]
    simp only [hhk]

/-- Witness for C5 at `recC5` (freshly recorded interaction, hook
transforms it before the response is returned). -/
theorem beforeResponseReplay_runs_on_every_result_witness :
    (recC5.roundTrip baseReq ctxLive 7).1
      = .ok (getHTTPResponse
          { captureInteraction baseReq respHello 7 with
              response := { (captureInteraction baseReq respHello 7).response with
                              body := "MODIFIED" } }) :=
  (beforeResponseReplay_runs_on_every_result recC5 baseReq ctxLive 7
      (captureInteraction baseReq respHello 7) rfl rfl rfl rfl).1
    { captureInteraction baseReq respHello 7 with
        response := { (captureInteraction baseReq respHello 7).response with
                        body := "MODIFIED" } }
    rfl

/-! ## Atomicity of capture under after-capture hook errors -/

theorem applyHooksAux_error_shape (kind : HookKind) :
    ∀ (hooks : List Hook) (idx : Nat) (i : Interaction) (e : GoErr)
      (inv : List Nat),
      applyHooksAux kind hooks idx i = (.error e, inv) →
      ∃ k, k ∈ inv ∧ (∀ m ∈ inv, m ≤ k) ∧ idx ≤ k
        ∧ ∃ h0, hooks.get? (k - idx) = some h0 ∧ h0.kind = kind
            ∧ ∃ i0, h0.handler i0 = .error e := by
  intro hooks
  induction hooks with
  | nil =>
    intro idx i e inv h
    simp [applyHooksAux] at h
  | cons h rest ih =>
    intro idx i e inv hres
    cases hk : (h.kind == kind) with
    | false =>
      simp only [applyHooksAux, hk] at hres
      obtain ⟨k, hkin, hmax, hge, h0, hget, hkind, hi0⟩ :=
        ih (idx + 1) i e inv hres
      refine ⟨k, hkin, hmax, by omega, h0, ?_, hkind, hi0⟩
      rw [show k - idx = (k - (idx + 1)) + 1 by omega]
      simpa using hget
    | true =>
      cases hh : h.handler i with
      | error e2 =>
        simp only [applyHooksAux, hk, hh, if_true] at hres
        obtain ⟨he, hinv⟩ := Prod.mk.injEq _ _ _ _ ▸ hres
        have he2 : e2 = e := by
          cases he
          rfl
        refine ⟨idx, ?_, ?_, le_refl idx, h, ?_, by simpa using hk, i, ?_⟩
        · rw [← hinv]
          exact List.mem_singleton_self idx
        · intro m hm
          rw [← hinv] at hm
          simp at hm
          omega
        · simp
        · rw [hh, he2]
      | ok i2 =>
        simp only [applyHooksAux, hk, hh, if_true] at hres
        rcases haux : applyHooksAux kind rest (idx + 1) i2 with ⟨res2, inv2⟩
        rw [haux] at hres
        simp only at hres
        obtain ⟨hres2, hinv⟩ := Prod.mk.injEq _ _ _ _ ▸ hres
        obtain ⟨k, hkin, hmax, hge, h0, hget, hkind, hi0⟩ :=
          ih (idx + 1) i2 e inv2 (by rw [haux, hres2])
        refine ⟨k, ?_, ?_, by omega, h0, ?_, hkind, hi0⟩
        · rw [← hinv]
          exact List.mem_cons_of_mem idx hkin
        · intro m hm
          rw [← hinv] at hm
          rcases List.mem_cons.mp hm with hm | hm
          · omega
          · exact hmax m hm
        · rw [show k - idx = (k - (idx + 1)) + 1 by omega]
          simpa using hget

/-- C6: capture is atomic with respect to after-capture hook errors.  In
the record path, if running the after-capture hooks over the captured
interaction fails with `e`, then: the request handler returns `e`, the
cassette's interaction list is unchanged (nothing is appended), the
top-level round trip returns `e`, and the hooks that ran form a downward
closed prefix ending at the failing hook — no hook registered after it is
invoked. -/
theorem afterCapture_atomic (rec : Recorder) (r : HttpRequest) (ctx : CtxState)
    (elapsed : Nat) (e : GoErr) (inv : List Nat) (resp : HttpResponse)
    (hctx : ctx.errAtHandlerEntry = none)
    (hmode : rec.mode = .recordOnly)
    (hreplay : rec.cassette.replayableInteractions = false)
    (hpf : r.parseFormOk = true)
    (hpass : rec.passthroughs.any (fun p => p r) = false)
    (htrans : rec.getRoundTripper r = .ok resp)
    (herr : applyHooksAux .afterCapture rec.hooks 0
        (captureInteraction r resp elapsed) = (.error e, inv)) :
    (rec.requestHandler r ctx elapsed).1 = .error e
    ∧ (rec.requestHandler r ctx elapsed).2.1.cassette.interactions
        = rec.cassette.interactions
    ∧ (rec.roundTrip r ctx elapsed).1 = .error e
    ∧ ∃ k, k ∈ inv ∧ (∀ m ∈ inv, m ≤ k)
        ∧ ∃ h0, rec.hooks.get? k = some h0 ∧ h0.kind = .afterCapture
            ∧ ∃ i0, h0.handler i0 = .error e := by
  have hrp : rec.recordPath r elapsed = (.error e, rec, r) := by
    simp only [Recorder.recordPath, hpf, Bool.not_true, Bool.false_eq_true,
      if_false, htrans, applyHooks, herr]
  have hrh : rec.requestHandler r ctx elapsed = (.error e, rec, r) := by
    simp only [Recorder.requestHandler, hctx, hmode, hreplay]
    simpa using hrp
  have hmode2 : (rec.mode == Mode.passthrough) = false := by
    rw [hmode]
    rfl
  have hroundTrip := roundTrip_nonpass rec r ctx elapsed hmode2 hpass
  rw [hrh] at hroundTrip
  obtain ⟨k, hkin, hmax, _, h0, hget, hkind, hi0⟩ :=
    applyHooksAux_error_shape .afterCapture rec.hooks 0
      (captureInteraction r resp elapsed) e inv herr
  refine ⟨by rw [hrh], by rw [hrh], by rw [hroundTrip], k, hkin, hmax, h0, ?_, hkind, hi0⟩
  simpa using hget

/-- Witness for C6 at `recC6`: the first after-capture hook fails, the
second is never invoked (`inv = [0]`), nothing is appended, and the error
propagates out of the round trip. -/
theorem afterCapture_atomic_witness :
    (recC6.requestHandler baseReq ctxLive 3).1 = .error (.hookError "boom")
    ∧ (recC6.requestHandler baseReq ctxLive 3).2.1.cassette.interactions
        = recC6.cassette.interactions
    ∧ (recC6.roundTrip baseReq ctxLive 3).1 = .error (.hookError "boom")
    ∧ ∃ k, k ∈ [0] ∧ (∀ m ∈ [0], m ≤ k)
        ∧ ∃ h0, recC6.hooks.get? k = some h0 ∧ h0.kind = .afterCapture
            ∧ ∃ i0, h0.handler i0 = .error (.hookError "boom") :=
  afterCapture_atomic recC6 baseReq ctxLive 3 (.hookError "boom") [0] respHello
    rfl rfl rfl rfl rfl rfl rfl

/-! ## Body normalization and restoration -/

end VCR
